import Mathlib

/-!
Verification of the TileScope viewport / tile-addressing / render engine
(`src/TileScope.py`).  The Python code is shallowly embedded: the mutable
`TileScope` object becomes an explicit state structure `TS`, Python floats
become exact rationals (`ℚ`), Python `int(...)` / `//` on nonnegative
floats become `Int.floor`, and the pygame / tkinter side effects (drawing,
dialogs, file output) are elided, keeping only the state arithmetic the
claims are about.
-/

namespace TileScope

/-- `TILESET_WIDTH = 2048` (module constant). -/
def TILESET_WIDTH : ℕ := 2048

/-- `TILESET_HEIGHT = 512` (module constant). -/
def TILESET_HEIGHT : ℕ := 512

/-- `TILE_SIZE = 16` (module constant). -/
def TILE_SIZE : ℕ := 16

/-- `COLS = TILESET_WIDTH // TILE_SIZE` (module constant, = 128). -/
def COLS : ℕ := TILESET_WIDTH / TILE_SIZE

/-- `ROWS = TILESET_HEIGHT // TILE_SIZE` (module constant, = 32). -/
def ROWS : ℕ := TILESET_HEIGHT / TILE_SIZE

/-- `TOTAL_TILES = COLS * ROWS` (module constant, = 4096). -/
def TOTAL_TILES : ℕ := COLS * ROWS

/-- `MAX_SURFACE_DIM = 8192` (module constant). -/
def MAX_SURFACE_DIM : ℕ := 8192

/-- `compute_tile_id(col, row)`: `(col % 16) + (col // 16) * 512 + row * 16`. -/
def compute_tile_id (col row : ℕ) : ℕ :=
  col % 16 + col / 16 * 512 + row * 16

/-- `get_tile_from_id(tile_id)`: returns `None` when `tile_id` is outside
`[0, TOTAL_TILES)`, otherwise scans rows (outer) and columns (inner) and
returns the first `(c_idx, r_idx)` whose computed id equals `tile_id`.
The scan is rendered with `List.findSome?` over `List.range`, which mirrors
the first-match-wins nested `for` loops. -/
def get_tile_from_id (tile_id : ℤ) : Option (ℕ × ℕ) :=
  if 0 ≤ tile_id ∧ tile_id < (TOTAL_TILES : ℤ) then
    List.findSome?
      (fun r_idx =>
        List.findSome?
          (fun c_idx =>
            if (compute_tile_id c_idx r_idx : ℤ) = tile_id then
              some (c_idx, r_idx)
            else none)
          (List.range COLS))
      (List.range ROWS)
  else none

lemma compute_tile_id_lt {c r : ℕ} (hc : c < 128) (hr : r < 32) :
    compute_tile_id c r < 4096 := by
  simp only [compute_tile_id]
  omega

lemma compute_tile_id_inj {c r c2 r2 : ℕ}
    (hc : c < 128) (hr : r < 32) (hc2 : c2 < 128) (hr2 : r2 < 32)
    (h : compute_tile_id c r = compute_tile_id c2 r2) : c = c2 ∧ r = r2 := by
  simp only [compute_tile_id] at h
  omega

lemma range_findSome?_eq_some {α : Type} {f : ℕ → Option α} {n i : ℕ} {v : α}
    (hi : i < n) (hf : f i = some v)
    (hn : ∀ j, j < n → j ≠ i → f j = none) :
    List.findSome? f (List.range n) = some v := by
  induction n with
  | zero => omega
  | succ n ih =>
    rw [List.range_succ, List.findSome?_append]
    rcases Nat.lt_or_ge i n with h | h
    · rw [ih h (fun j hj hji => hn j (Nat.lt_succ_of_lt hj) hji)]
      rfl
    · have hin : i = n := by omega
      subst hin
      have h1 : List.findSome? f (List.range i) = none := by
        rw [List.findSome?_eq_none_iff]
        intro x hx
        exact hn x (Nat.lt_succ_of_lt (List.mem_range.mp hx))
          (Nat.ne_of_lt (List.mem_range.mp hx))
      rw [h1]
      simp [List.findSome?_cons, hf]

lemma ROWS_eq : ROWS = 32 := rfl

lemma COLS_eq : COLS = 128 := rfl

lemma TOTAL_TILES_eq : TOTAL_TILES = 4096 := rfl

/-- Claim C1: for every `(col,row)` with `0 ≤ col < 128`, `0 ≤ row < 32`,
the id `compute_tile_id col row` lies in `[0, 4096)`,
`get_tile_from_id` maps it back to exactly `(col, row)`, and every id in
`[0, 4096)` is reached by some valid `(col, row)`: the addressing formula
is a bijection onto `[0, TOTAL_TILES)` and `get_tile_from_id` is its
inverse on the reference 128×32 grid. -/
theorem c1_tile_id_bijection :
    (∀ col row : ℕ, col < 128 → row < 32 →
      compute_tile_id col row < TOTAL_TILES ∧
      get_tile_from_id (compute_tile_id col row) = some (col, row)) ∧
    (∀ id : ℤ, 0 ≤ id → id < 4096 →
      ∃ col row : ℕ, col < 128 ∧ row < 32 ∧
        (compute_tile_id col row : ℤ) = id) := by
  constructor
  · intro col row hc hr
    have hlt := compute_tile_id_lt hc hr
    refine ⟨by rw [TOTAL_TILES_eq]; exact hlt, ?_⟩
    unfold get_tile_from_id
    rw [if_pos ⟨Int.ofNat_nonneg _, by rw [TOTAL_TILES_eq]; exact_mod_cast hlt⟩]
    rw [ROWS_eq, COLS_eq]
    refine range_findSome?_eq_some (i := row) hr ?_ ?_
    · refine range_findSome?_eq_some (i := col) hc ?_ ?_
      · rw [if_pos rfl]
      · intro j hj hji
        rw [if_neg]
        intro habs
        have habs2 : compute_tile_id j row = compute_tile_id col row := by
          exact_mod_cast habs
        exact hji (compute_tile_id_inj hj hr hc hr habs2).1
    · intro j hj hji
      rw [List.findSome?_eq_none_iff]
      intro c hcmem
      rw [if_neg]
      intro habs
      have habs2 : compute_tile_id c j = compute_tile_id col row := by
        exact_mod_cast habs
      exact hji (compute_tile_id_inj (List.mem_range.mp hcmem) hj hc hr habs2).2
  · intro id h0 h4096
    refine ⟨id.toNat / 512 * 16 + id.toNat % 16, id.toNat % 512 / 16, ?_, ?_, ?_⟩
    · omega
    · omega
    · simp only [compute_tile_id]
      push_cast
      omega

/-- Witness for C1 at concrete inputs: tile `(20, 5)` round-trips and
id `777` is reached. -/
theorem c1_tile_id_bijection_witness :
    (compute_tile_id 20 5 < TOTAL_TILES ∧
      get_tile_from_id (compute_tile_id 20 5) = some (20, 5)) ∧
    ∃ col row : ℕ, col < 128 ∧ row < 32 ∧ (compute_tile_id col row : ℤ) = 777 :=
  ⟨c1_tile_id_bijection.1 20 5 (by decide) (by decide),
   c1_tile_id_bijection.2 777 (by decide) (by decide)⟩

/-- Viewport / selection state of the running `TileScope` object.
Fields keep the Python attribute names; floats are modelled as `ℚ`.
`actual_applied_zoom` is the stored effective zoom, written only by
`update_scaled_tileset_and_overlays`. -/
structure TS where
  zoom : ℚ
  actual_applied_zoom : ℚ
  offset_x : ℚ
  offset_y : ℚ
  screen_width : ℚ
  screen_height : ℚ
  show_ui_panel_flag : Bool
  selected_tiles : Finset (ℕ × ℕ)

/-- `min_zoom = 0.05`. -/
def min_zoom : ℚ := 1 / 20

/-- `max_zoom = 4.0`. -/
def max_zoom : ℚ := 4

/-- The recurring idiom
`self.ui_panel_rect.height if self.show_ui_panel_flag and self.ui_panel and self.ui_panel.alive() else 0`:
the panel rect height is the fixed `panel_height = 85` from
`setup_ui_elements`, and the panel is assumed alive. -/
def panel_height (s : TS) : ℚ :=
  if s.show_ui_panel_flag then 85 else 0

/-- The effective-zoom computation of
`update_scaled_tileset_and_overlays`: clamps the conceptual scaled size
to the `MAX_SURFACE_DIM = 8192` ceiling (preserving the
`aspect = TILESET_WIDTH / TILESET_HEIGHT` ratio, with the
`aspect > 0` guard of the code), floors both dimensions to ints with a 1-pixel
minimum (`max(1, int(...))`), and derives `actual_applied_zoom`,
preferring the height-derived value when it differs from the
width-derived one by more than `1e-5`.  Module constants appear as their
numeric values (`TILESET_WIDTH = 2048`, `TILESET_HEIGHT = 512`). -/
def applied_zoom_of (zoom : ℚ) : ℚ :=
  let conceptual_w : ℚ := 2048 * zoom
  let conceptual_h : ℚ := 512 * zoom
  let aspect : ℚ := 2048 / 512
  let final_scaled_w : ℚ :=
    if conceptual_w > 8192 then 8192
    else if conceptual_h > 8192 then 8192 * aspect
    else conceptual_w
  let final_scaled_h : ℚ :=
    if conceptual_w > 8192 then (if aspect > 0 then 8192 / aspect else 8192)
    else if conceptual_h > 8192 then 8192
    else conceptual_h
  let final_scaled_w_int : ℤ := max 1 ⌊final_scaled_w⌋
  let final_scaled_h_int : ℤ := max 1 ⌊final_scaled_h⌋
  let a1 : ℚ := (final_scaled_w_int : ℚ) / 2048
  if |(final_scaled_h_int : ℚ) / 512 - a1| > 1 / 100000 then
    (final_scaled_h_int : ℚ) / 512
  else a1

/-- The method itself: stores the recomputed effective zoom; the rescaled
surfaces and overlay caches it also rebuilds are pure render artifacts
with no further influence on the modelled state. -/
def update_scaled_tileset_and_overlays (s : TS) : TS :=
  { s with actual_applied_zoom := applied_zoom_of s.zoom }

/-- `clamp_offset`: centers each axis when the conceptual scaled image is
smaller than the view on that axis, otherwise clamps the offset to
`[view - scaled, 0]`. View height subtracts the UI panel height. -/
def clamp_offset (s : TS) : TS :=
  let conceptual_scaled_width : ℚ := 2048 * s.zoom
  let conceptual_scaled_height : ℚ := 512 * s.zoom
  let view_height : ℚ := s.screen_height - panel_height s
  let ox : ℚ :=
    if conceptual_scaled_width < s.screen_width then
      (s.screen_width - conceptual_scaled_width) / 2
    else
      min 0 (max s.offset_x (s.screen_width - conceptual_scaled_width))
  let oy : ℚ :=
    if conceptual_scaled_height < view_height then
      (view_height - conceptual_scaled_height) / 2
    else
      min 0 (max s.offset_y (view_height - conceptual_scaled_height))
  { s with offset_x := ox, offset_y := oy }

/-- The clamped new conceptual zoom computed at the top of
`_adjust_zoom_internal`: `max(min_zoom, min(zoom * factor, max_zoom))`. -/
def new_conceptual_zoom (z factor : ℚ) : ℚ :=
  max min_zoom (min (z * factor) max_zoom)

/-- `_adjust_zoom_internal(factor, zoom_center_x, zoom_center_y)`:
no-op when the clamped new zoom is within `1e-6` of the old zoom;
otherwise re-anchors the offsets so the zoom center stays fixed,
stores the new zoom, rescales, and reclamps. -/
def adjust_zoom_internal (factor zoom_center_x zoom_center_y : ℚ) (s : TS) : TS :=
  let old_conceptual_zoom := s.zoom
  let nz := new_conceptual_zoom s.zoom factor
  if |nz - old_conceptual_zoom| < 1 / 1000000 then s
  else
    clamp_offset (update_scaled_tileset_and_overlays
      { s with
        offset_x := zoom_center_x - (zoom_center_x - s.offset_x) * (nz / old_conceptual_zoom),
        offset_y := zoom_center_y - (zoom_center_y - s.offset_y) * (nz / old_conceptual_zoom),
        zoom := nz })

/-- `adjust_zoom_at_mouse(factor)` with the mouse position passed
explicitly: zooms only when the mouse is above the UI panel. -/
def adjust_zoom_at_mouse (factor mouse_x mouse_y : ℚ) (s : TS) : TS :=
  if mouse_y < s.screen_height - panel_height s then
    adjust_zoom_internal factor mouse_x mouse_y s
  else s

/-- `adjust_zoom_at_center(factor)`: zooms anchored at the center of the
tile-viewing area. -/
def adjust_zoom_at_center (factor : ℚ) (s : TS) : TS :=
  adjust_zoom_internal factor (s.screen_width / 2)
    ((s.screen_height - panel_height s) / 2) s

/-- `reset_view`: sets zoom to 1.0, rescales, centers both offsets using
the display size at `actual_applied_zoom`, then reclamps. -/
def reset_view (s : TS) : TS :=
  let s1 := update_scaled_tileset_and_overlays { s with zoom := 1 }
  let view_height : ℚ := s1.screen_height - panel_height s1
  let current_display_width : ℚ := 2048 * s1.actual_applied_zoom
  let current_display_height : ℚ := 512 * s1.actual_applied_zoom
  clamp_offset
    { s1 with
      offset_x := (s1.screen_width - current_display_width) / 2,
      offset_y := (view_height - current_display_height) / 2 }

/-- `center_on_tile_id(tile_id)`: on failure of `get_tile_from_id`,
returns `False` without touching any state; on success selects the tile,
forces zoom to at least 2.0, rescales, centers the viewport on the tile
midpoint, and reclamps. The returned `Bool` is the Python return value. -/
def center_on_tile_id (tile_id : ℤ) (s : TS) : TS × Bool :=
  match get_tile_from_id tile_id with
  | some (col, row) =>
    let s1 := { s with selected_tiles := {(col, row)} }
    let s2 := if s1.zoom < 2 then { s1 with zoom := 2 } else s1
    let s3 := update_scaled_tileset_and_overlays s2
    let tile_center_x : ℚ := ((col : ℚ) + 1/2) * 16 * s3.actual_applied_zoom
    let tile_center_y : ℚ := ((row : ℚ) + 1/2) * 16 * s3.actual_applied_zoom
    let view_center_x : ℚ := s3.screen_width / 2
    let view_center_y : ℚ := (s3.screen_height - panel_height s3) / 2
    (clamp_offset
      { s3 with
        offset_x := view_center_x - tile_center_x,
        offset_y := view_center_y - tile_center_y }, true)
  | none => (s, false)

/-- The guarded divisor
`self.actual_applied_zoom if self.actual_applied_zoom > 1e-6 else 1.0`
used by `get_visible_tile_range` and the hover mapping in
`handle_events`. -/
def safe_actual_zoom (s : TS) : ℚ :=
  if s.actual_applied_zoom > 1 / 1000000 then s.actual_applied_zoom else 1

/-- `get_visible_tile_range`: converts the view rectangle to base-image
coordinates through `safe_actual_zoom`, floors to tile indices
(`//` on floats), adds a 2-tile trailing buffer and clamps to the grid.
Returns `(start_col, end_col, start_row, end_row)`. -/
def get_visible_tile_range (s : TS) : ℤ × ℤ × ℤ × ℤ :=
  let ph := panel_height s
  let saz := safe_actual_zoom s
  let base_img_x_start : ℚ := -s.offset_x / saz
  let base_img_y_start : ℚ := -s.offset_y / saz
  let base_img_view_width : ℚ := s.screen_width / saz
  let base_img_view_height : ℚ := (s.screen_height - ph) / saz
  let base_img_x_end : ℚ := base_img_x_start + base_img_view_width
  let base_img_y_end : ℚ := base_img_y_start + base_img_view_height
  (max 0 ⌊base_img_x_start / 16⌋,
   min 128 (⌊base_img_x_end / 16⌋ + 2),
   max 0 ⌊base_img_y_start / 16⌋,
   min 32 (⌊base_img_y_end / 16⌋ + 2))

/-- Hover update from the `MOUSEMOTION` branch of `handle_events`: when
the mouse is over the tileset area, converts the mouse position to image
coordinates through `safe_actual_zoom` and floors to a tile coordinate if
inside the image, else clears the hover. -/
def hover_tile (mouse_x mouse_y : ℚ) (s : TS) : Option (ℕ × ℕ) :=
  if mouse_y < s.screen_height - panel_height s then
    let saz := safe_actual_zoom s
    let img_x : ℚ := (mouse_x - s.offset_x) / saz
    let img_y : ℚ := (mouse_y - s.offset_y) / saz
    if 0 ≤ img_x ∧ img_x < 2048 ∧ 0 ≤ img_y ∧ img_y < 512 then
      some ((⌊img_x / 16⌋).toNat, (⌊img_y / 16⌋).toNat)
    else none
  else none

/-- Left-click selection from the `MOUSEBUTTONDOWN` branch of
`handle_events`, for a click landing on hovered tile `tile_coords`:
with a shift/ctrl modifier the membership of the tile in
`selected_tiles` is toggled, otherwise the selection is replaced by the
singleton. -/
def click_select (tile_coords : ℕ × ℕ) (modifier : Bool) (s : TS) : TS :=
  if modifier then
    if tile_coords ∈ s.selected_tiles then
      { s with selected_tiles := s.selected_tiles.erase tile_coords }
    else
      { s with selected_tiles := insert tile_coords s.selected_tiles }
  else
    { s with selected_tiles := {tile_coords} }

/-- Claim C4: after `clamp_offset`, on each axis independently: if the
conceptual scaled image dimension is smaller than the view dimension
(view height = screen height minus the UI panel height) the offset
centers the image on that axis; otherwise the offset lies in
`[viewSize - scaledSize, 0]`. -/
theorem c4_clamp_centers_or_bounds (s : TS) :
    (2048 * s.zoom < s.screen_width →
      (clamp_offset s).offset_x =
        (s.screen_width - 2048 * s.zoom) / 2) ∧
    (¬ 2048 * s.zoom < s.screen_width →
      s.screen_width - 2048 * s.zoom ≤ (clamp_offset s).offset_x ∧
      (clamp_offset s).offset_x ≤ 0) ∧
    (512 * s.zoom < s.screen_height - panel_height s →
      (clamp_offset s).offset_y =
        (s.screen_height - panel_height s - 512 * s.zoom) / 2) ∧
    (¬ 512 * s.zoom < s.screen_height - panel_height s →
      s.screen_height - panel_height s - 512 * s.zoom ≤
        (clamp_offset s).offset_y ∧
      (clamp_offset s).offset_y ≤ 0) := by
  simp only [clamp_offset]
  refine ⟨fun h => by rw [if_pos h], fun h => ?_, fun h => by rw [if_pos h],
    fun h => ?_⟩
  · rw [if_neg h]
    have h2 : s.screen_width - 2048 * s.zoom ≤ 0 := by
      have := not_lt.mp h; linarith
    exact ⟨le_min h2 (le_max_right _ _), min_le_left _ _⟩
  · rw [if_neg h]
    have h2 : s.screen_height - panel_height s - 512 * s.zoom ≤ 0 := by
      have := not_lt.mp h; linarith
    exact ⟨le_min h2 (le_max_right _ _), min_le_left _ _⟩

/-- Witness for C4 at a concrete state: zoom `1/10` on a 1000×700 screen
with the panel shown makes the 204.8×51.2 scaled image smaller than the
1000×615 view on both axes, so `clamp_offset` centers both offsets. -/
theorem c4_clamp_centers_or_bounds_witness :
    (clamp_offset ⟨1/10, 1, 5, 7, 1000, 700, true, ∅⟩).offset_x = 1988/5 ∧
    (clamp_offset ⟨1/10, 1, 5, 7, 1000, 700, true, ∅⟩).offset_y = 2819/10 := by
  have h := c4_clamp_centers_or_bounds ⟨1/10, 1, 5, 7, 1000, 700, true, ∅⟩
  constructor
  · rw [h.1 (by norm_num)]
    norm_num
  · rw [h.2.2.1 (by norm_num [panel_height])]
    norm_num [panel_height]

/-- Claim C6: a modifier click toggles membership, so two consecutive
modifier clicks on the same tile restore the selection exactly; a click
without a modifier replaces the selection by the singleton. -/
theorem c6_click_toggle_involutive (s : TS) (t : ℕ × ℕ) :
    (click_select t true (click_select t true s)).selected_tiles =
      s.selected_tiles ∧
    (click_select t false s).selected_tiles = {t} := by
  constructor
  · by_cases h : t ∈ s.selected_tiles
    · simp [click_select, h, Finset.not_mem_erase, Finset.insert_erase h]
    · simp [click_select, h, Finset.erase_insert h]
  · simp [click_select]

/-- Claim C7: for every id outside `[0, 4096)`, `get_tile_from_id`
returns `none` and `center_on_tile_id` leaves the whole state (selection,
zoom, offsets) unchanged while reporting failure (`false`). -/
theorem c7_invalid_id_no_mutation (s : TS) (id : ℤ)
    (h : id < 0 ∨ 4096 ≤ id) :
    get_tile_from_id id = none ∧ center_on_tile_id id s = (s, false) := by
  have hnone : get_tile_from_id id = none := by
    unfold get_tile_from_id
    rw [if_neg]
    intro hc
    rcases h with h | h
    · omega
    · have h2 := hc.2
      rw [TOTAL_TILES_eq] at h2
      omega
  refine ⟨hnone, ?_⟩
  unfold center_on_tile_id
  rw [hnone]

/-- Witness for C7: id `-5` on a concrete state. -/
theorem c7_invalid_id_no_mutation_witness :
    get_tile_from_id (-5) = none ∧
    center_on_tile_id (-5) ⟨1, 1, 0, 103/2, 1000, 700, true, ∅⟩ =
      (⟨1, 1, 0, 103/2, 1000, 700, true, ∅⟩, false) :=
  c7_invalid_id_no_mutation ⟨1, 1, 0, 103/2, 1000, 700, true, ∅⟩ (-5)
    (Or.inl (by norm_num))

/-- Claim C8: for every viewport state, `get_visible_tile_range` returns
a tile rectangle clamped to grid bounds:
`0 ≤ start_col`, `end_col ≤ 128`, `0 ≤ start_row`, `end_row ≤ 32`. -/
theorem c8_visible_range_in_bounds (s : TS) :
    0 ≤ (get_visible_tile_range s).1 ∧
    (get_visible_tile_range s).2.1 ≤ 128 ∧
    0 ≤ (get_visible_tile_range s).2.2.1 ∧
    (get_visible_tile_range s).2.2.2 ≤ 32 := by
  simp only [get_visible_tile_range]
  exact ⟨le_max_left _ _, min_le_left _ _, le_max_left _ _, min_le_left _ _⟩

set_option maxHeartbeats 1600000 in
lemma applied_zoom_of_ge (z : ℚ) : 1 / 2048 ≤ applied_zoom_of z := by
  have hfw : ∀ x : ℤ, (1 : ℚ) / 2048 ≤ ((max 1 x : ℤ) : ℚ) / 2048 := by
    intro x
    have h1 : (1 : ℚ) ≤ ((max 1 x : ℤ) : ℚ) := by exact_mod_cast le_max_left 1 x
    linarith
  have hfh : ∀ x : ℤ, (1 : ℚ) / 2048 ≤ ((max 1 x : ℤ) : ℚ) / 512 := by
    intro x
    have h1 : (1 : ℚ) ≤ ((max 1 x : ℤ) : ℚ) := by exact_mod_cast le_max_left 1 x
    linarith
  unfold applied_zoom_of
  dsimp only
  split_ifs <;> first | exact hfh _ | exact hfw _

lemma update_scaled_actual_ge (s : TS) :
    1 / 2048 ≤ (update_scaled_tileset_and_overlays s).actual_applied_zoom :=
  applied_zoom_of_ge s.zoom

lemma applied_zoom_of_exact (z : ℚ) (k : ℤ) (hk : (512 : ℚ) * z = k)
    (h1 : 1 ≤ k) (hz : z ≤ 4) : applied_zoom_of z = z := by
  have hcw : ¬ (2048 : ℚ) * z > 8192 := by intro h; nlinarith
  have hch : ¬ (512 : ℚ) * z > 8192 := by intro h; nlinarith
  unfold applied_zoom_of
  dsimp only
  rw [if_neg hcw, if_neg hch, if_neg hcw, if_neg hch]
  have hw4 : (2048 : ℚ) * z = ((4 * k : ℤ) : ℚ) := by push_cast; linarith
  have hfl_w : ⌊(2048 : ℚ) * z⌋ = 4 * k := by rw [hw4, Int.floor_intCast]
  have hfl_h : ⌊(512 : ℚ) * z⌋ = k := by rw [hk, Int.floor_intCast]
  rw [hfl_w, hfl_h]
  have hm1 : max 1 (4 * k) = 4 * k := by omega
  have hm2 : max 1 k = k := by omega
  rw [hm1, hm2]
  have ha1 : ((4 * k : ℤ) : ℚ) / 2048 = z := by push_cast; rw [← hk]; ring
  have ha2 : ((k : ℤ) : ℚ) / 512 = z := by rw [← hk]; ring
  rw [ha1, ha2]
  simp

lemma applied_zoom_of_bounds (z : ℚ) (h1 : 1/20 ≤ z) (h2 : z ≤ 4) :
    1/2048 ≤ applied_zoom_of z ∧ applied_zoom_of z ≤ z := by
  have hcw : ¬ (2048 : ℚ) * z > 8192 := by intro h; nlinarith
  have hch : ¬ (512 : ℚ) * z > 8192 := by intro h; nlinarith
  unfold applied_zoom_of
  dsimp only
  rw [if_neg hcw, if_neg hch, if_neg hcw, if_neg hch]
  have hfw1 : (102 : ℤ) ≤ ⌊(2048 : ℚ) * z⌋ := by
    apply Int.le_floor.mpr; push_cast; linarith
  have hfw2 : (⌊(2048 : ℚ) * z⌋ : ℚ) ≤ 2048 * z := Int.floor_le _
  have hfh1 : (25 : ℤ) ≤ ⌊(512 : ℚ) * z⌋ := by
    apply Int.le_floor.mpr; push_cast; linarith
  have hfh2 : (⌊(512 : ℚ) * z⌋ : ℚ) ≤ 512 * z := Int.floor_le _
  have hm1 : max 1 ⌊(2048 : ℚ) * z⌋ = ⌊(2048 : ℚ) * z⌋ := by omega
  have hm2 : max 1 ⌊(512 : ℚ) * z⌋ = ⌊(512 : ℚ) * z⌋ := by omega
  rw [hm1, hm2]
  have hq1 : (102 : ℚ) ≤ (⌊(2048 : ℚ) * z⌋ : ℚ) := by exact_mod_cast hfw1
  have hq2 : (25 : ℚ) ≤ (⌊(512 : ℚ) * z⌋ : ℚ) := by exact_mod_cast hfh1
  split_ifs with h
  · constructor <;> linarith
  · constructor <;> linarith

lemma clamp_offset_zoom (s : TS) : (clamp_offset s).zoom = s.zoom := rfl

lemma clamp_offset_actual (s : TS) :
    (clamp_offset s).actual_applied_zoom = s.actual_applied_zoom := rfl

lemma update_scaled_zoom (s : TS) :
    (update_scaled_tileset_and_overlays s).zoom = s.zoom := rfl

lemma update_scaled_actual (s : TS) :
    (update_scaled_tileset_and_overlays s).actual_applied_zoom =
      applied_zoom_of s.zoom := rfl

/-- `clamp_offset` leaves the offsets unchanged when the image is at
least as large as the view on both axes and both offsets already lie in
the allowed interval. -/
lemma clamp_offset_eq_of_in_range (s : TS)
    (hx0 : ¬ 2048 * s.zoom < s.screen_width)
    (hx1 : s.screen_width - 2048 * s.zoom ≤ s.offset_x) (hx2 : s.offset_x ≤ 0)
    (hy0 : ¬ 512 * s.zoom < s.screen_height - panel_height s)
    (hy1 : s.screen_height - panel_height s - 512 * s.zoom ≤ s.offset_y)
    (hy2 : s.offset_y ≤ 0) :
    (clamp_offset s).offset_x = s.offset_x ∧
    (clamp_offset s).offset_y = s.offset_y := by
  unfold clamp_offset
  dsimp only
  rw [if_neg hx0, if_neg hy0, max_eq_left hx1, max_eq_left hy1,
    min_eq_right hx2, min_eq_right hy2]
  exact ⟨rfl, rfl⟩

/-- Claim C10 (implicit): the effective zoom stored by
`update_scaled_tileset_and_overlays` is always at least `1/2048` (the
scaled surface is floored at 1×1 pixels), and the guarded divisor
`safe_actual_zoom` used by `get_visible_tile_range` and the hover mapping
is always strictly positive, substituting `1.0` whenever the stored
effective zoom is not greater than `1e-6`; hence no screen-to-image
conversion divides by zero. -/
theorem c10_division_safe (s : TS) :
    1 / 2048 ≤ (update_scaled_tileset_and_overlays s).actual_applied_zoom ∧
    0 < safe_actual_zoom s ∧
    (¬ s.actual_applied_zoom > 1 / 1000000 → safe_actual_zoom s = 1) := by
  refine ⟨update_scaled_actual_ge s, ?_, ?_⟩
  · unfold safe_actual_zoom
    split_ifs with h
    · linarith
    · norm_num
  · intro h
    unfold safe_actual_zoom
    rw [if_neg h]

/-- Witness for C10 at a concrete state with stored effective zoom `0`:
the guarded divisor substitutes `1`. -/
theorem c10_division_safe_witness :
    1 / 2048 ≤ (update_scaled_tileset_and_overlays
      ⟨1, 0, 0, 0, 1000, 700, true, ∅⟩).actual_applied_zoom ∧
    0 < safe_actual_zoom ⟨1, 0, 0, 0, 1000, 700, true, ∅⟩ ∧
    safe_actual_zoom ⟨1, 0, 0, 0, 1000, 700, true, ∅⟩ = 1 := by
  have h := c10_division_safe ⟨1, 0, 0, 0, 1000, 700, true, ∅⟩
  exact ⟨h.1, h.2.1, h.2.2 (by norm_num)⟩

lemma reset_view_default_screen (z a ox oy : ℚ) (sel : Finset (ℕ × ℕ)) :
    (reset_view ⟨z, a, ox, oy, 1000, 700, true, sel⟩).offset_x = -524 ∧
    (reset_view ⟨z, a, ox, oy, 1000, 700, true, sel⟩).offset_y = 103 / 2 := by
  have h1 : applied_zoom_of 1 = 1 :=
    applied_zoom_of_exact 1 512 (by norm_num) (by norm_num) (by norm_num)
  unfold reset_view update_scaled_tileset_and_overlays clamp_offset panel_height
  dsimp only
  rw [h1]
  norm_num [min_def, max_def]

/-- Counterexample to claim C5 as stated: with screen 1000×700, reserved
bottom 85 and zoom 1.0, `reset_view` does not produce
`offset_x = 1000 - 2048 = -1048`.  `reset_view` first centers the
2048-pixel-wide image horizontally at `(1000 - 2048)/2 = -524`, and
`clamp_offset` keeps that value because `-524` already lies inside the
allowed interval `[-1048, 0]` — the clamp only constrains an offset that
has left that interval, it does not push a centered offset to the edge. -/
theorem c5_counterexample :
    (reset_view ⟨1, 1, 0, 0, 1000, 700, true, ∅⟩).offset_x ≠ -1048 := by
  rw [(reset_view_default_screen 1 1 0 0 ∅).1]
  norm_num

/-- Claim C5 (amended): with screen size 1000×700, reserved bottom height
85, `reset_view` produces `offset_x = (1000 - 2048)/2 = -524` (the image
exceeds the view width but reset centers it horizontally, and that value
lies inside the clamp interval `[1000 - 2048, 0]`, so it is kept) and
`offset_y = (615 - 512)/2 = 51.5` (the image is shorter than the
615-pixel view so it is vertically centered), independent of the prior
zoom, offsets and selection. -/
theorem c5_reset_offsets (z a ox oy : ℚ) (sel : Finset (ℕ × ℕ)) :
    (reset_view ⟨z, a, ox, oy, 1000, 700, true, sel⟩).offset_x = -524 ∧
    (reset_view ⟨z, a, ox, oy, 1000, 700, true, sel⟩).offset_y = 103 / 2 :=
  reset_view_default_screen z a ox oy sel

lemma new_conceptual_zoom_nine_tenths : new_conceptual_zoom 1 (9/10) = 9/10 := by
  norm_num [new_conceptual_zoom, min_zoom, max_zoom, min_def, max_def]

lemma applied_zoom_of_nine_tenths : applied_zoom_of (9/10) = 115/128 := by
  unfold applied_zoom_of
  dsimp only
  rw [if_neg (by norm_num : ¬ (2048 : ℚ) * (9/10) > 8192),
    if_neg (by norm_num : ¬ (512 : ℚ) * (9/10) > 8192),
    if_neg (by norm_num : ¬ (2048 : ℚ) * (9/10) > 8192),
    if_neg (by norm_num : ¬ (512 : ℚ) * (9/10) > 8192)]
  rw [show (2048 : ℚ) * (9/10) = 9216/5 by norm_num,
    show (512 : ℚ) * (9/10) = 2304/5 by norm_num]
  rw [show ⌊(9216/5 : ℚ)⌋ = 1843 by norm_num,
    show ⌊(2304/5 : ℚ)⌋ = 460 by norm_num]
  rw [show max (1:ℤ) 1843 = 1843 by norm_num,
    show max (1:ℤ) 460 = 460 by norm_num]
  rw [if_pos]
  · norm_num
  · rw [show ((460 : ℤ) : ℚ) / 512 - ((1843 : ℤ) : ℚ) / 2048 = -(3/2048) by norm_num,
      abs_neg, abs_of_nonneg (by norm_num)]
    norm_num

/-- The state evaluated in the C2 counterexample: the default state right
after construction (zoom 1, effective zoom 1, offsets clamped to
`(0, 51.5)` on the 1000×700 screen with the panel shown, empty
selection). -/
def c2_state : TS := ⟨1, 1, 0, 103/2, 1000, 700, true, ∅⟩

lemma c2_state_step :
    adjust_zoom_at_mouse (9/10) 999 300 c2_state =
      ⟨9/10, 115/128, 0, 771/10, 1000, 700, true, ∅⟩ := by
  unfold adjust_zoom_at_mouse c2_state
  rw [if_pos (by norm_num [panel_height])]
  unfold adjust_zoom_internal
  dsimp only
  rw [new_conceptual_zoom_nine_tenths]
  rw [if_neg]
  · unfold update_scaled_tileset_and_overlays
    dsimp only
    rw [applied_zoom_of_nine_tenths]
    unfold clamp_offset panel_height
    dsimp only
    norm_num [min_def, max_def]
  · rw [show (9/10 : ℚ) - 1 = -(1/10) by norm_num, abs_neg,
      abs_of_nonneg (by norm_num)]
    norm_num

/-- Counterexample to claim C2 as stated: from the freshly initialized
state (zoom 1, offsets `(0, 51.5)`, 1000×700 screen, panel shown), one
wheel zoom-out (`adjust_zoom_at_mouse` with factor `0.9`) anchored at the
screen point `(999, 300)` moves the image coordinate under that point
from `999` to `127872/115 ≈ 1111.9`: a drift of `12987/115 ≈ 112.9`
image pixels, far above `0.5`.  The anchored offset `99.9` computed by
`_adjust_zoom_internal` is outside the clamp interval `[-843.2, 0]`, so
`clamp_offset` snaps it to `0` and the anchoring is lost; the effective
zoom also drops to `115/128` rather than `9/10` through the floored
surface size. -/
theorem c2_counterexample :
    ¬ (|(999 - (adjust_zoom_at_mouse (9/10) 999 300 c2_state).offset_x) /
          (adjust_zoom_at_mouse (9/10) 999 300 c2_state).actual_applied_zoom -
        (999 - c2_state.offset_x) / c2_state.actual_applied_zoom| < 1/2) := by
  rw [c2_state_step]
  unfold c2_state
  dsimp only
  rw [show (999 - (0:ℚ)) / (115/128) - (999 - 0) / 1 = 12987/115 by norm_num,
    abs_of_nonneg (by norm_num)]
  norm_num

/-- Claim C2 (amended): a zoom-at-point operation preserves the image
coordinate under the anchored screen point to within `0.5` image pixels
(indeed exactly, drift `0`) provided the operation does not run into the
two corrections visible in the code: (a) the effective zoom equals the
conceptual zoom before the operation and the new conceptual zoom keeps
`512 * zoom` integral (so flooring the scaled surface does not perturb
the effective zoom), and (b) the anchored offsets already lie inside the
clamp intervals on both axes (so `clamp_offset` leaves them unchanged).
Without these side conditions the claim is false
(`c2_counterexample`). -/
theorem c2_zoom_anchoring (s : TS) (factor cx cy : ℚ) (k : ℤ)
    (hzpos : 0 < s.zoom)
    (ha : s.actual_applied_zoom = s.zoom)
    (hk : (512 : ℚ) * new_conceptual_zoom s.zoom factor = k)
    (hxw : s.screen_width ≤ 2048 * new_conceptual_zoom s.zoom factor)
    (hx1 : s.screen_width - 2048 * new_conceptual_zoom s.zoom factor ≤
      cx - (cx - s.offset_x) * (new_conceptual_zoom s.zoom factor / s.zoom))
    (hx2 : cx - (cx - s.offset_x) * (new_conceptual_zoom s.zoom factor / s.zoom) ≤ 0)
    (hyw : s.screen_height - panel_height s ≤
      512 * new_conceptual_zoom s.zoom factor)
    (hy1 : s.screen_height - panel_height s -
        512 * new_conceptual_zoom s.zoom factor ≤
      cy - (cy - s.offset_y) * (new_conceptual_zoom s.zoom factor / s.zoom))
    (hy2 : cy - (cy - s.offset_y) * (new_conceptual_zoom s.zoom factor / s.zoom) ≤ 0) :
    |(cx - (adjust_zoom_internal factor cx cy s).offset_x) /
        (adjust_zoom_internal factor cx cy s).actual_applied_zoom -
      (cx - s.offset_x) / s.actual_applied_zoom| < 1/2 ∧
    |(cy - (adjust_zoom_internal factor cx cy s).offset_y) /
        (adjust_zoom_internal factor cx cy s).actual_applied_zoom -
      (cy - s.offset_y) / s.actual_applied_zoom| < 1/2 := by
  set nz := new_conceptual_zoom s.zoom factor with hnzd
  have hnz_lb : (1:ℚ)/20 ≤ nz := by
    have := le_max_left min_zoom (min (s.zoom * factor) max_zoom)
    rw [min_zoom] at this
    exact this
  have hnz_ub : nz ≤ 4 := by
    apply max_le
    · norm_num [min_zoom]
    · have := min_le_right (s.zoom * factor) max_zoom
      rw [max_zoom] at this
      exact this
  have hnzpos : (0:ℚ) < nz := by linarith
  have hk1 : 1 ≤ k := by
    have hq : (1 : ℚ) ≤ (k : ℚ) := by
      rw [← hk]; linarith
    exact_mod_cast hq
  unfold adjust_zoom_internal
  rw [← hnzd]
  by_cases hsmall : |nz - s.zoom| < 1/1000000
  · rw [if_pos hsmall]
    constructor <;> simp [sub_self, abs_zero]
  · rw [if_neg hsmall]
    have hq : applied_zoom_of nz = nz := applied_zoom_of_exact nz k hk hk1 hnz_ub
    set t : TS :=
      { s with
        offset_x := cx - (cx - s.offset_x) * (nz / s.zoom),
        offset_y := cy - (cy - s.offset_y) * (nz / s.zoom),
        zoom := nz } with htd
    have htzoom : t.zoom = nz := rfl
    have hu : update_scaled_tileset_and_overlays t =
        { t with actual_applied_zoom := applied_zoom_of nz } := rfl
    rw [hu]
    have hclamp := clamp_offset_eq_of_in_range
      { t with actual_applied_zoom := applied_zoom_of nz }
      (by simpa [htd, panel_height] using not_lt.mpr hxw)
      (by simpa [htd] using hx1) (by simpa [htd] using hx2)
      (by simpa [htd, panel_height] using not_lt.mpr hyw)
      (by simpa [htd, panel_height] using hy1) (by simpa [htd] using hy2)
    rw [clamp_offset_actual] at *
    rw [hclamp.1, hclamp.2]
    have hax : ({ t with actual_applied_zoom := applied_zoom_of nz } : TS).actual_applied_zoom = nz := by
      rw [hq]
    have hox : ({ t with actual_applied_zoom := applied_zoom_of nz } : TS).offset_x =
        cx - (cx - s.offset_x) * (nz / s.zoom) := rfl
    have hoy : ({ t with actual_applied_zoom := applied_zoom_of nz } : TS).offset_y =
        cy - (cy - s.offset_y) * (nz / s.zoom) := rfl
    rw [hax, hox, hoy, ha]
    have hxeq : (cx - (cx - (cx - s.offset_x) * (nz / s.zoom))) / nz =
        (cx - s.offset_x) / s.zoom := by
      field_simp
      ring
    have hyeq : (cy - (cy - (cy - s.offset_y) * (nz / s.zoom))) / nz =
        (cy - s.offset_y) / s.zoom := by
      field_simp
      ring
    rw [hxeq, hyeq]
    constructor <;> simp [sub_self, abs_zero]

/-- Witness for C2 (amended) at a concrete instance: zoom 2 → 3
(`factor 3/2`, both with integral `512 * zoom`) anchored at
`(500, 300)` from offsets `(-2000, -200)`; the anchored offsets
`(-3250, -450)` stay inside the clamp intervals, and the image point
under the anchor is exactly preserved. -/
theorem c2_zoom_anchoring_witness :
    |(500 - (adjust_zoom_internal (3/2) 500 300
          ⟨2, 2, -2000, -200, 1000, 700, true, ∅⟩).offset_x) /
        (adjust_zoom_internal (3/2) 500 300
          ⟨2, 2, -2000, -200, 1000, 700, true, ∅⟩).actual_applied_zoom -
      (500 - (-2000 : ℚ)) / 2| < 1/2 ∧
    |(300 - (adjust_zoom_internal (3/2) 500 300
          ⟨2, 2, -2000, -200, 1000, 700, true, ∅⟩).offset_y) /
        (adjust_zoom_internal (3/2) 500 300
          ⟨2, 2, -2000, -200, 1000, 700, true, ∅⟩).actual_applied_zoom -
      (300 - (-200 : ℚ)) / 2| < 1/2 :=
  c2_zoom_anchoring ⟨2, 2, -2000, -200, 1000, 700, true, ∅⟩ (3/2) 500 300 1536
    (by norm_num)
    (by norm_num)
    (by norm_num [new_conceptual_zoom, min_zoom, max_zoom, min_def, max_def])
    (by norm_num [new_conceptual_zoom, min_zoom, max_zoom, min_def, max_def])
    (by norm_num [new_conceptual_zoom, min_zoom, max_zoom, min_def, max_def])
    (by norm_num [new_conceptual_zoom, min_zoom, max_zoom, min_def, max_def])
    (by norm_num [new_conceptual_zoom, min_zoom, max_zoom, min_def, max_def,
      panel_height])
    (by norm_num [new_conceptual_zoom, min_zoom, max_zoom, min_def, max_def,
      panel_height])
    (by norm_num [new_conceptual_zoom, min_zoom, max_zoom, min_def, max_def])

/-- The zoom operations reachable from the UI: wheel zoom at the mouse,
keyboard/button zoom at the view center, reset, and the
`center_on_tile_id` of the search feature. -/
inductive ZoomOp where
  | at_mouse (factor mouse_x mouse_y : ℚ)
  | at_center (factor : ℚ)
  | reset
  | center_tile (tile_id : ℤ)

/-- Dispatch of a `ZoomOp` to the corresponding engine method. -/
def apply_zoom_op (s : TS) (op : ZoomOp) : TS :=
  match op with
  | .at_mouse f mx my => adjust_zoom_at_mouse f mx my s
  | .at_center f => adjust_zoom_at_center f s
  | .reset => reset_view s
  | .center_tile id => (center_on_tile_id id s).1

/-- The invariant of claim C3: the requested zoom stays within
`[min_zoom, max_zoom] = [0.05, 4.0]` and the effective zoom keeps both
scaled dimensions within the `MAX_SURFACE_DIM = 8192` ceiling
(`effectiveZoom * 2048 ≤ 8192` and `effectiveZoom * 512 ≤ 8192`). -/
def zoom_invariant (s : TS) : Prop :=
  1/20 ≤ s.zoom ∧ s.zoom ≤ 4 ∧
  s.actual_applied_zoom * 2048 ≤ 8192 ∧
  s.actual_applied_zoom * 512 ≤ 8192

/-- The state assembled by `__init__` for the default 1000×700 window:
zoom and effective zoom 1.0, offsets 0 then
`update_scaled_tileset_and_overlays` and `clamp_offset`, panel shown,
empty selection. -/
def initial_state : TS :=
  clamp_offset (update_scaled_tileset_and_overlays
    ⟨1, 1, 0, 0, 1000, 700, true, ∅⟩)

lemma new_conceptual_zoom_bounds (z f : ℚ) :
    1/20 ≤ new_conceptual_zoom z f ∧ new_conceptual_zoom z f ≤ 4 := by
  constructor
  · have h := le_max_left min_zoom (min (z * f) max_zoom)
    rw [min_zoom] at h
    exact h
  · apply max_le
    · norm_num [min_zoom]
    · have h := min_le_right (z * f) max_zoom
      rw [max_zoom] at h
      exact h

lemma inv_preserved_adjust (f cx cy : ℚ) (s : TS) (h : zoom_invariant s) :
    zoom_invariant (adjust_zoom_internal f cx cy s) := by
  unfold adjust_zoom_internal
  dsimp only
  split_ifs with hsmall
  · exact h
  · obtain ⟨hb1, hb2⟩ := new_conceptual_zoom_bounds s.zoom f
    obtain ⟨ha1, ha2⟩ :=
      applied_zoom_of_bounds (new_conceptual_zoom s.zoom f) hb1 hb2
    refine ⟨?_, ?_, ?_, ?_⟩ <;>
      simp only [clamp_offset_zoom, update_scaled_zoom, clamp_offset_actual,
        update_scaled_actual] <;>
      [exact hb1; exact hb2; nlinarith; nlinarith]

lemma inv_preserved_reset (s : TS) : zoom_invariant (reset_view s) := by
  have hz : (reset_view s).zoom = 1 := rfl
  have ha : (reset_view s).actual_applied_zoom = applied_zoom_of 1 := rfl
  unfold zoom_invariant
  rw [hz, ha, applied_zoom_of_exact 1 512 (by norm_num) (by norm_num) (by norm_num)]
  norm_num

lemma inv_preserved_center (id : ℤ) (s : TS) (h : zoom_invariant s) :
    zoom_invariant (center_on_tile_id id s).1 := by
  unfold center_on_tile_id
  cases hco : get_tile_from_id id with
  | none => exact h
  | some cr =>
    obtain ⟨c, r⟩ := cr
    dsimp only
    split_ifs with hlt
    · have h2 : applied_zoom_of 2 = 2 :=
        applied_zoom_of_exact 2 1024 (by norm_num) (by norm_num) (by norm_num)
      refine ⟨?_, ?_, ?_, ?_⟩ <;>
        simp only [clamp_offset_zoom, update_scaled_zoom, clamp_offset_actual,
          update_scaled_actual] <;>
        norm_num [h2]
    · obtain ⟨ha1, ha2⟩ := applied_zoom_of_bounds s.zoom h.1 h.2.1
      refine ⟨?_, ?_, ?_, ?_⟩ <;>
        simp only [clamp_offset_zoom, update_scaled_zoom, clamp_offset_actual,
          update_scaled_actual] <;>
        [exact h.1; exact h.2.1; nlinarith [h.1, h.2.1]; nlinarith [h.1, h.2.1]]

lemma inv_preserved_at_mouse (f mx my : ℚ) (s : TS) (h : zoom_invariant s) :
    zoom_invariant (adjust_zoom_at_mouse f mx my s) := by
  unfold adjust_zoom_at_mouse
  split_ifs
  · exact inv_preserved_adjust f mx my s h
  · exact h

lemma inv_preserved_op (s : TS) (op : ZoomOp) (h : zoom_invariant s) :
    zoom_invariant (apply_zoom_op s op) := by
  cases op with
  | at_mouse f mx my => exact inv_preserved_at_mouse f mx my s h
  | at_center f => exact inv_preserved_adjust f _ _ s h
  | reset => exact inv_preserved_reset s
  | center_tile id => exact inv_preserved_center id s h

/-- Claim C3: the freshly constructed state satisfies the zoom invariant,
and every sequence of zoom operations (zoom at mouse or center with any
factor, reset, center-on-tile) preserves it: the requested zoom stays in
`[0.05, 4.0]`, and at every reachable state the effective zoom satisfies
`effectiveZoom * 2048 ≤ 8192` and `effectiveZoom * 512 ≤ 8192`. -/
theorem c3_zoom_within_bounds :
    zoom_invariant initial_state ∧
    ∀ (ops : List ZoomOp) (s : TS), zoom_invariant s →
      zoom_invariant (ops.foldl apply_zoom_op s) := by
  constructor
  · have hz : initial_state.zoom = 1 := rfl
    have ha : initial_state.actual_applied_zoom = applied_zoom_of 1 := rfl
    unfold zoom_invariant
    rw [hz, ha,
      applied_zoom_of_exact 1 512 (by norm_num) (by norm_num) (by norm_num)]
    norm_num
  · intro ops
    induction ops with
    | nil => exact fun s h => h
    | cons op ops ih => exact fun s h => ih _ (inv_preserved_op s op h)

/-- Witness for C3: a concrete three-operation sequence from the initial
state. -/
theorem c3_zoom_within_bounds_witness :
    zoom_invariant
      ([ZoomOp.at_center (6/5), ZoomOp.at_mouse (9/10) 400 200,
        ZoomOp.reset].foldl apply_zoom_op initial_state) :=
  c3_zoom_within_bounds.2 _ initial_state c3_zoom_within_bounds.1

/-- Observable outcome of an export run: the list of emitted progress
fractions and whether the run was aborted by a drained quit event. -/
structure ExportRun where
  progress : List ℚ
  aborted : Bool

/-- One iteration of the tile-number loop in `export_tileset_image`, at
processed-count `p` (`1`-based): when `p % 100 == 0` the code sets
`export_progress = processed / total`, redraws, and drains pending
events, returning (aborting) if a quit event is pending.  `quit_pending
p` tells whether the drained events at checkpoint `p` contain
`pygame.QUIT`.  Once aborted, no further tile is processed. -/
def export_step (quit_pending : ℕ → Bool) (st : ExportRun) (p : ℕ) : ExportRun :=
  if st.aborted then st
  else if p % 100 = 0 then
    let st2 : ExportRun := ⟨st.progress ++ [(p : ℚ) / 4096], false⟩
    if quit_pending p then ⟨st2.progress, true⟩ else st2
  else st

/-- Control flow of `export_tileset_image` (progress / cancellation
part).  The dialog, the overlay and grid drawing, and the final
`pygame.image.save` are external effects; what is modelled is that the
progress/event-drain checkpoints live only inside the
`if self.show_numbers:` tile loop (`COLS * ROWS` tiles, numbered
`1..4096`, `total = COLS * ROWS = 4096`), and that the image file is
saved iff the run was not aborted.  The returned `Bool` is "file
saved". -/
def export_tileset_image (show_numbers : Bool) (quit_pending : ℕ → Bool) :
    ExportRun × Bool :=
  if show_numbers then
    let final := (((List.range (COLS * ROWS))).map (· + 1)).foldl
      (export_step quit_pending) ⟨[], false⟩
    (final, !final.aborted)
  else (⟨[], false⟩, true)

lemma export_foldl_aborted (q : ℕ → Bool) :
    ∀ (L : List ℕ) (st : ExportRun), st.aborted = true →
      L.foldl (export_step q) st = st := by
  intro L
  induction L with
  | nil => intro st _; rfl
  | cons p L ih =>
    intro st h
    rw [List.foldl_cons]
    rw [show export_step q st p = st from by unfold export_step; rw [if_pos h]]
    exact ih st h

lemma export_foldl_no_quit (q : ℕ → Bool) (hq : ∀ p, q p = false) :
    ∀ (L : List ℕ) (st : ExportRun), st.aborted = false →
      L.foldl (export_step q) st =
        ⟨st.progress ++
          (L.filter (fun p => p % 100 == 0)).map (fun p => (p : ℚ) / 4096),
          false⟩ := by
  intro L
  induction L with
  | nil =>
    intro st h
    cases st with
    | mk pr ab => simp at h; subst h; simp
  | cons p L ih =>
    intro st h
    rw [List.foldl_cons, List.filter_cons]
    by_cases hp : p % 100 = 0
    · rw [show export_step q st p = ⟨st.progress ++ [(p : ℚ) / 4096], false⟩ from by
        unfold export_step; rw [if_neg (by rw [h]; exact Bool.false_ne_true),
          if_pos hp, if_neg (by rw [hq p]; exact Bool.false_ne_true)]]
      rw [ih _ rfl]
      simp [hp]
    · rw [show export_step q st p = st from by
        unfold export_step; rw [if_neg (by rw [h]; exact Bool.false_ne_true),
          if_neg hp]]
      rw [ih st h]
      simp [hp]

lemma export_foldl_quit (q : ℕ → Bool) :
    ∀ (L : List ℕ) (st : ExportRun),
      (∃ p ∈ L, p % 100 = 0 ∧ q p = true) →
      (L.foldl (export_step q) st).aborted = true := by
  intro L
  induction L with
  | nil => intro st h; simp at h
  | cons a L ih =>
    intro st h
    rw [List.foldl_cons]
    obtain ⟨p, hmem, hp, hqp⟩ := h
    rcases List.mem_cons.mp hmem with heq | hmem2
    · subst heq
      by_cases hab : st.aborted = true
      · rw [export_foldl_aborted q L _ (by
          unfold export_step; rw [if_pos hab]; exact hab)]
        rw [show export_step q st p = st from by unfold export_step; rw [if_pos hab]]
        exact hab
      · have hab2 : st.aborted = false := by
          cases hst : st.aborted
          · rfl
          · exact absurd hst hab
        rw [show export_step q st p = ⟨st.progress ++ [(p : ℚ) / 4096], true⟩ from by
          unfold export_step
          rw [if_neg (by rw [hab2]; exact Bool.false_ne_true), if_pos hp,
            if_pos hqp]]
        rw [export_foldl_aborted q L _ rfl]
    · exact ih (export_step q st a) ⟨p, hmem2, hp, hqp⟩

/-- Counterexample to claim C9 as stated: the claim asserts the
progress/cancellation checkpoints run "regardless of which overlays are
enabled", but in the code they live only inside the
`if self.show_numbers:` loop.  With the tile-number overlay disabled and
a quit (cancellation) event pending the whole time, the export emits no
progress at all, never drains the cancellation, and still saves the
file. -/
theorem c9_counterexample :
    export_tileset_image false (fun _ => true) = (⟨[], false⟩, true) := rfl

/-- Claim C9 (amended): the progress/cancellation behaviour holds only
when the tile-number overlay is enabled.  Then: the file is saved iff the
run is not aborted; with no cancellation pending, a progress fraction
`p/4096` is emitted at exactly the processed counts `p` that are
multiples of 100 and the file is saved; and if a quit event is pending at
some checkpoint (`1 ≤ p ≤ 4096`, `p % 100 = 0`) the run aborts and the
image file is never saved.  With the tile-number overlay disabled, no
progress is emitted, cancellation is never drained, and the file is
always saved. -/
theorem c9_export_progress_cancel :
    (∀ q, export_tileset_image false q = (⟨[], false⟩, true)) ∧
    (∀ q, (export_tileset_image true q).2 =
      !(export_tileset_image true q).1.aborted) ∧
    (∀ q, (∀ p, q p = false) →
      export_tileset_image true q =
        (⟨((((List.range (COLS * ROWS)).map (fun n : ℕ => n + 1)).filter
              (fun p => p % 100 == 0)).map (fun p => (p : ℚ) / 4096) : List ℚ),
          false⟩, true)) ∧
    (∀ q p, 1 ≤ p → p ≤ 4096 → p % 100 = 0 → q p = true →
      (export_tileset_image true q).1.aborted = true ∧
      (export_tileset_image true q).2 = false) := by
  refine ⟨fun q => rfl, ?_, ?_, ?_⟩
  · intro q
    unfold export_tileset_image
    rw [if_pos rfl]
  · intro q hq
    unfold export_tileset_image
    rw [if_pos rfl]
    rw [export_foldl_no_quit q hq _ ⟨[], false⟩ rfl]
    simp
  · intro q p h1 h2 h3 h4
    have hmem : p ∈ (List.range (COLS * ROWS)).map (· + 1) := by
      rw [List.mem_map]
      refine ⟨p - 1, ?_, by omega⟩
      rw [List.mem_range, show COLS * ROWS = 4096 from rfl]
      omega
    have hab := export_foldl_quit q ((List.range (COLS * ROWS)).map (· + 1))
      ⟨[], false⟩ ⟨p, hmem, h3, h4⟩
    constructor
    · unfold export_tileset_image
      rw [if_pos rfl]
      exact hab
    · unfold export_tileset_image
      rw [if_pos rfl]
      dsimp only
      rw [hab]
      rfl

/-- Witness for C9 (amended): a quit event pending at checkpoint 300
aborts the run and the file is not saved; with numbers disabled the run
saves unconditionally. -/
theorem c9_export_progress_cancel_witness :
    (export_tileset_image true (fun p => p == 300)).1.aborted = true ∧
    (export_tileset_image true (fun p => p == 300)).2 = false :=
  c9_export_progress_cancel.2.2.2 (fun p => p == 300) 300
    (by norm_num) (by norm_num) (by norm_num) (by rfl)

end TileScope
